import Mathlib

/-!
Shallow embedding of the forex ticker core (the `Ticker` class of the
cron-driven variant, which carries the day bounds and the
support/resistance-aware classifier described by the specification).

Modelling conventions, chosen to mirror JavaScript number semantics exactly:
* prices are rationals (`ℚ`); `parseFloat` of the upstream CSV field is
  abstracted as an already-parsed rational;
* a `number` field that can hold the JS value `undefined` (the `price` field
  before the first sample, `previousPrice` after the first assignment from an
  unset `price`, the `date` field) is an `Option`; arithmetic through an
  unset operand produces `none`, and every comparison against `none` is
  false, exactly as NaN/undefined comparisons are false in JS;
* `Math.min(...xs)` yields `+Infinity` on an empty spread and `Math.max(...xs)`
  yields `-Infinity`, so a spread extremum is an `Option ℚ` whose `none`
  stands for the infinite value of the empty case (`jsMinList`, `jsMaxList`),
  and each comparison of a finite number against such a value is spelled out
  (`qleTop p o` is `p ≤ o` where `none` is `+Infinity`, and so on);
* `lowPriceOfTheDay` is initialised to `Infinity` and `highPriceOfTheDay` to
  `-Infinity`, so they are `Option ℚ` with `none` as the respective infinite
  sentinel.
-/

/-- Trading signal, the value space of `calculateScore`. -/
inductive Signal where
  | BUY
  | SELL
  | NEUTRAL
deriving DecidableEq

/-- Trend direction, the value space of the `trendDirection` field. -/
inductive Trend where
  | UP
  | DOWN
  | NEUTRAL
deriving DecidableEq

/-- The only observation the source makes on a `Date` value is `getDate()`,
the day of the month; so a timestamp is embedded as that single field. -/
structure JsDate where
  dayOfMonth : Nat
deriving DecidableEq

/-- One entry of `priceHistory`: `{ price, timestamp }`. -/
structure PricePoint where
  price : ℚ
  timestamp : JsDate
deriving DecidableEq

/-- One entry of `scoreHistory`: `{ score, timestamp }`. -/
structure ScorePoint where
  score : Signal
  timestamp : JsDate
deriving DecidableEq

/-- The mutable fields of the `Ticker` class.  The two day bounds use `none`
for their initial infinite sentinel (`Infinity` for the low, `-Infinity` for
the high). -/
structure Ticker where
  symbol : String
  currency : String
  price : Option ℚ
  previousPrice : Option ℚ
  date : Option JsDate
  score : Signal
  lowPriceOfTheDay : Option ℚ
  highPriceOfTheDay : Option ℚ
  priceHistory : List PricePoint
  scoreHistory : List ScorePoint
  supportLevels : List ℚ
  resistanceLevels : List ℚ
  trendDirection : Trend
deriving DecidableEq

def xauSym : String := "XAU"

def usdCur : String := "USD"

/-- Constructor state: `previousPrice = 0`, `score = "NEUTRAL"`,
`lowPriceOfTheDay = Infinity`, `highPriceOfTheDay = -Infinity`, empty
histories and level sets, `trendDirection = "NEUTRAL"`; `price` and `date`
are declared but not initialised (JS `undefined`). -/
def initTicker (symbol : String) : Ticker where
  symbol := symbol
  currency := usdCur
  price := none
  previousPrice := some 0
  date := none
  score := Signal.NEUTRAL
  lowPriceOfTheDay := none
  highPriceOfTheDay := none
  priceHistory := []
  scoreHistory := []
  supportLevels := []
  resistanceLevels := []
  trendDirection := Trend.NEUTRAL

/-- `Math.min(...l)`: the least element, `none` (= `+Infinity`) on an empty
spread. -/
def jsMinList (l : List ℚ) : Option ℚ :=
  match l with
  | [] => none
  | x :: xs => some (xs.foldl min x)

/-- `Math.max(...l)`: the greatest element, `none` (= `-Infinity`) on an
empty spread. -/
def jsMaxList (l : List ℚ) : Option ℚ :=
  match l with
  | [] => none
  | x :: xs => some (xs.foldl max x)

/-- `p <= o` where `o` is a value that is `+Infinity` when `none`:
true against the infinite sentinel. -/
def qleTop (p : ℚ) (o : Option ℚ) : Prop :=
  match o with
  | none => True
  | some m => p ≤ m

/-- `p < o` where `o` is `+Infinity` when `none`. -/
def qltTop (p : ℚ) (o : Option ℚ) : Prop :=
  match o with
  | none => True
  | some m => p < m

/-- `p >= o` where `o` is a value that is `-Infinity` when `none`:
true against the infinite sentinel. -/
def qgeBot (p : ℚ) (o : Option ℚ) : Prop :=
  match o with
  | none => True
  | some m => m ≤ p

/-- `p > o` where `o` is `-Infinity` when `none`. -/
def qgtBot (p : ℚ) (o : Option ℚ) : Prop :=
  match o with
  | none => True
  | some m => m < p

instance qleTopDec (p : ℚ) : (o : Option ℚ) → Decidable (qleTop p o)
  | none => isTrue True.intro
  | some m => inferInstanceAs (Decidable (p ≤ m))

instance qltTopDec (p : ℚ) : (o : Option ℚ) → Decidable (qltTop p o)
  | none => isTrue True.intro
  | some m => inferInstanceAs (Decidable (p < m))

instance qgeBotDec (p : ℚ) : (o : Option ℚ) → Decidable (qgeBot p o)
  | none => isTrue True.intro
  | some m => inferInstanceAs (Decidable (m ≤ p))

instance qgtBotDec (p : ℚ) : (o : Option ℚ) → Decidable (qgtBot p o)
  | none => isTrue True.intro
  | some m => inferInstanceAs (Decidable (m < p))

/-- Comparison `o > c` on a possibly-NaN (`none`) value: false on `none`,
matching a JS comparison against NaN. -/
def ogtP (o : Option ℚ) (c : ℚ) : Prop :=
  match o with
  | none => False
  | some v => c < v

/-- Comparison `o < c` on a possibly-NaN (`none`) value: false on `none`. -/
def oltP (o : Option ℚ) (c : ℚ) : Prop :=
  match o with
  | none => False
  | some v => v < c

instance ogtPDec (c : ℚ) : (o : Option ℚ) → Decidable (ogtP o c)
  | none => isFalse False.elim
  | some v => inferInstanceAs (Decidable (c < v))

instance oltPDec (c : ℚ) : (o : Option ℚ) → Decidable (oltP o c)
  | none => isFalse False.elim
  | some v => inferInstanceAs (Decidable (v < c))

/-- JS `array.slice(-count)`.  For `count > 0` this is the suffix of length
`min count length`; for `count = 0` JS evaluates `slice(-0) = slice(0)`,
returning the whole array. -/
def sliceNeg (l : List α) (count : Nat) : List α :=
  if count = 0 then l else l.drop (l.length - count)

/-- The `push` followed by the conditional `shift()` used by both history
buffers: append, then drop the front element when the length exceeds 100. -/
def boundedPush (l : List α) (x : α) : List α :=
  let l2 := l ++ [x]
  if l2.length > 100 then l2.drop 1 else l2

/-- `getPriceHistory(count)`: `priceHistory.slice(-count).map(e => e.price)`. -/
def getPriceHistory (s : Ticker) (count : Nat) : List ℚ :=
  (sliceNeg s.priceHistory count).map PricePoint.price

/-- Updates the low and high price of the day.  The source computes
`currentDay = this.date.getDate()` and then tests
`this.date.getDate() !== currentDay` — the value compared with itself — so
the reset branch is transliterated as that self-inequality.  The two bound
updates compare the price against a possibly-infinite bound; a comparison
through an unset (`undefined`) price is false, hence the outer match. -/
def updatePriceOfTheDay (s : Ticker) : Ticker :=
  let currentDay := s.date.map JsDate.dayOfMonth
  let s1 := if s.date.map JsDate.dayOfMonth ≠ currentDay then
    { s with lowPriceOfTheDay := none, highPriceOfTheDay := none } else s
  match s1.price with
  | none => s1
  | some p =>
    let s2 := if qltTop p s1.lowPriceOfTheDay then
      { s1 with lowPriceOfTheDay := some p } else s1
    if qgtBot p s2.highPriceOfTheDay then
      { s2 with highPriceOfTheDay := some p } else s2

/-- `updateSupportResistanceLevels` of the cron variant: extrema are taken
over the entire `priceHistory`; a level is appended when the current price
equals the extremum (strict `===`, never true against the infinite extremum
of an empty history) and is not already present. -/
def updateSupportResistanceLevels (s : Ticker) : Ticker :=
  let allPrices := s.priceHistory.map PricePoint.price
  let minPrice := jsMinList allPrices
  let maxPrice := jsMaxList allPrices
  match s.price with
  | none => s
  | some p =>
    let s1 := if minPrice = some p ∧ p ∉ s.supportLevels then
      { s with supportLevels := s.supportLevels ++ [p] } else s
    if maxPrice = some p ∧ p ∉ s1.resistanceLevels then
      { s1 with resistanceLevels := s1.resistanceLevels ++ [p] } else s1

/-- `storePriceData`: push `{price, timestamp}`, evict the oldest entry past
capacity 100, then update the support/resistance levels.  On the accepted
sample path `price` and `date` are always set; the fallback branch keeps the
function total. -/
def storePriceData (s : Ticker) : Ticker :=
  match s.price, s.date with
  | some p, some t =>
      updateSupportResistanceLevels
        { s with priceHistory := boundedPush s.priceHistory ⟨p, t⟩ }
  | _, _ => s

/-- Sum via `reduce((acc, x) => acc + x, 0)`. -/
def sumFold (l : List ℚ) : ℚ :=
  l.foldl (fun acc x => acc + x) 0

/-- Sum of squared deviations via `reduce((acc, x) => acc + (x - m)^2, 0)`. -/
def sqDevFold (l : List ℚ) (m : ℚ) : ℚ :=
  l.foldl (fun acc x => acc + (x - m) ^ 2) 0

/-- Mean of a price window; on an empty window the source divides `0 / 0`,
producing NaN, embedded as `none`. -/
def meanQ (l : List ℚ) : Option ℚ :=
  if l.length = 0 then none else some (sumFold l / l.length)

/-- Population variance of a price window; NaN (empty window) is `none`. -/
def varianceQ (l : List ℚ) : Option ℚ :=
  match meanQ l with
  | none => none
  | some m => some (sqDevFold l m / l.length)

/-- The source computes `volatility = Math.sqrt(variance)` and its single
consumer compares it against the constant `0.02`.  The variance is a mean of
squares, hence nonnegative, so for a positive threshold `c` the comparison
`Math.sqrt(variance) < c` holds exactly when `variance < c ^ 2`, and the
comparison is embedded on the variance side; a NaN volatility (empty window)
compares false, which `oltP` gives on `none`. -/
def volatilityLt (s : Ticker) (c : ℚ) : Prop :=
  oltP (varianceQ (getPriceHistory s 10)) (c ^ 2)

instance volatilityLtDec (s : Ticker) (c : ℚ) : Decidable (volatilityLt s c) :=
  inferInstanceAs (Decidable (oltP (varianceQ (getPriceHistory s 10)) (c ^ 2)))

/-- `this.price - sma` over the last-10 window; `none` propagates NaN from an
unset price or an empty window. -/
def trendStrengthRaw (s : Ticker) : Option ℚ :=
  match s.price, meanQ (getPriceHistory s 10) with
  | some p, some m => some (p - m)
  | _, _ => none

/-- `calculateTrendStrength`: the raw strength, multiplied by `1.2` when
`price <= Math.min(...supportLevels)` (true on an empty set, whose min is
`+Infinity`), else by `-1.2` when `price >= Math.max(...resistanceLevels)`
(true on an empty set, whose max is `-Infinity`).  With `price` unset both
comparisons are false and the raw (NaN) value is returned. -/
def calculateTrendStrength (s : Ticker) : Option ℚ :=
  let ts := trendStrengthRaw s
  match s.price with
  | none => ts
  | some p =>
    if qleTop p (jsMinList s.supportLevels) then ts.map (fun x => x * (6 / 5))
    else if qgeBot p (jsMaxList s.resistanceLevels) then ts.map (fun x => x * (-(6 / 5)))
    else ts

/-- `this.price - this.previousPrice`; `none` when either operand is unset. -/
def priceChange (s : Ticker) : Option ℚ :=
  match s.price, s.previousPrice with
  | some p, some q => some (p - q)
  | _, _ => none

/-- `supportLevels.some(level => price <= level * 1.01)`; false through an
unset price. -/
def isNearSupport (s : Ticker) : Prop :=
  match s.price with
  | none => False
  | some p => ∃ level ∈ s.supportLevels, p ≤ level * (101 / 100)

/-- `resistanceLevels.some(level => price >= level * 0.99)`; false through an
unset price. -/
def isNearResistance (s : Ticker) : Prop :=
  match s.price with
  | none => False
  | some p => ∃ level ∈ s.resistanceLevels, level * (99 / 100) ≤ p

instance isNearSupportDec (s : Ticker) : Decidable (isNearSupport s) :=
  match s with
  | ⟨_, _, none, _, _, _, _, _, _, _, _, _, _⟩ => isFalse False.elim
  | ⟨_, _, some _, _, _, _, _, _, _, _, _, _, _⟩ =>
      List.decidableBEx _ _

instance isNearResistanceDec (s : Ticker) : Decidable (isNearResistance s) :=
  match s with
  | ⟨_, _, none, _, _, _, _, _, _, _, _, _, _⟩ => isFalse False.elim
  | ⟨_, _, some _, _, _, _, _, _, _, _, _, _, _⟩ =>
      List.decidableBEx _ _

/-- The guard of the BUY branch of `calculateScore`: positive price change,
volatility below `0.02`, trend strength above `0.5`, not near resistance. -/
def buyCond (s : Ticker) : Prop :=
  ogtP (priceChange s) 0 ∧ volatilityLt s (1 / 50) ∧
    ogtP (calculateTrendStrength s) (1 / 2) ∧ ¬ isNearResistance s

/-- The guard of the SELL branch of `calculateScore`: negative price change,
volatility below `0.02`, trend strength below `-0.5`, not near support. -/
def sellCond (s : Ticker) : Prop :=
  oltP (priceChange s) 0 ∧ volatilityLt s (1 / 50) ∧
    oltP (calculateTrendStrength s) (-(1 / 2)) ∧ ¬ isNearSupport s

instance buyCondDec (s : Ticker) : Decidable (buyCond s) :=
  inferInstanceAs (Decidable (_ ∧ _ ∧ _ ∧ _))

instance sellCondDec (s : Ticker) : Decidable (sellCond s) :=
  inferInstanceAs (Decidable (_ ∧ _ ∧ _ ∧ _))

/-- `calculateScore`: BUY on the first guard, else SELL on the second, else
NEUTRAL.  The thresholds `0.02` and `0.5` are `1/50` and `1/2`. -/
def calculateScore (s : Ticker) : Signal :=
  if buyCond s then Signal.BUY
  else if sellCond s then Signal.SELL
  else Signal.NEUTRAL

/-- `storeScore`: compute the score, push `{score, timestamp}` with the same
bounded policy.  On the accepted path `date` is always set. -/
def storeScore (s : Ticker) : Ticker :=
  let sc := calculateScore s
  match s.date with
  | some t => { s with scoreHistory := boundedPush s.scoreHistory ⟨sc, t⟩ }
  | none => s

/-- `detectBOS`: compare the current price with the extrema of the last-10
window (which, at the call site, already contains the current sample). -/
def detectBOS (s : Ticker) : Ticker :=
  let recentHigh := jsMaxList (getPriceHistory s 10)
  let recentLow := jsMinList (getPriceHistory s 10)
  match s.price with
  | none => s
  | some p =>
    if qgtBot p recentHigh then { s with trendDirection := Trend.UP }
    else if qltTop p recentLow then { s with trendDirection := Trend.DOWN }
    else s

/-- `detectCOC`: a counter-move against an UP or DOWN trend resets it to
NEUTRAL; a comparison through an unset price is false. -/
def detectCOC (s : Ticker) : Ticker :=
  match s.price, s.previousPrice with
  | some p, some q =>
    if s.trendDirection = Trend.UP ∧ p < q then { s with trendDirection := Trend.NEUTRAL }
    else if s.trendDirection = Trend.DOWN ∧ q < p then { s with trendDirection := Trend.NEUTRAL }
    else s
  | _, _ => s

/-- The state right after the field assignments of the accepted-sample path
of `fetchPrice`: `date := now`, `previousPrice := price`, `price := p`. -/
def recordSample (s : Ticker) (p : ℚ) (t : JsDate) : Ticker :=
  { s with date := some t, previousPrice := s.price, price := some p }

/-- The state seen by `storeScore`: the sample recorded, the day bounds
updated, the price pushed and the levels refreshed. -/
def intermediateState (s : Ticker) (p : ℚ) (t : JsDate) : Ticker :=
  storePriceData (updatePriceOfTheDay (recordSample s p t))

/-- The whole accepted-sample path of `fetchPrice`:
assignments, `updatePriceOfTheDay`, `storePriceData`, `storeScore`,
`detectBOS`, `detectCOC`. -/
def acceptSample (s : Ticker) (p : ℚ) (t : JsDate) : Ticker :=
  detectCOC (detectBOS (storeScore (intermediateState s p t)))

/-- Folding a list of samples through `acceptSample`. -/
def runSamples (s : Ticker) (samples : List (ℚ × JsDate)) : Ticker :=
  samples.foldl (fun st pt => acceptSample st pt.1 pt.2) s

/-- Upstream payload as the core sees it: a failed HTTP response, a payload
failing the `!data || !data[0]` check, or a good payload whose first row is
abstracted as its already-parsed comma-separated numeric fields. -/
inductive Upstream where
  | httpError (status : Nat)
  | emptyData
  | payload (fields : List ℚ)

/-- `fetchPrice`: the two guard failures throw before any field assignment
and are caught by the handler that only logs, so they return the state
untouched together with the error flag; a good payload takes the accepted
path with `price := fields[1] ?? 0`. -/
def fetchPrice (s : Ticker) (u : Upstream) (now : JsDate) : Ticker × Bool :=
  match u with
  | Upstream.httpError _ => (s, true)
  | Upstream.emptyData => (s, true)
  | Upstream.payload fields => (acceptSample s (fields.getD 1 0) now, false)

/-- The record returned by `getAllData`. -/
structure TickerSnapshot where
  symbol : String
  price : Option ℚ
  previousPrice : Option ℚ
  date : Option JsDate
  score : Signal
  currency : String
  priceHistory : List PricePoint
  scoreHistory : List ScorePoint
  supportLevels : List ℚ
  resistanceLevels : List ℚ
  trendDirection : Trend
  lowPriceOfTheDay : Option ℚ
  highPriceOfTheDay : Option ℚ
deriving DecidableEq

/-- `getAllData`. -/
def getAllData (s : Ticker) : TickerSnapshot where
  symbol := s.symbol
  price := s.price
  previousPrice := s.previousPrice
  date := s.date
  score := s.score
  currency := s.currency
  priceHistory := s.priceHistory
  scoreHistory := s.scoreHistory
  supportLevels := s.supportLevels
  resistanceLevels := s.resistanceLevels
  trendDirection := s.trendDirection
  lowPriceOfTheDay := s.lowPriceOfTheDay
  highPriceOfTheDay := s.highPriceOfTheDay

/-! ### Concrete states used by the counterexamples and witnesses -/

def d0 : JsDate := ⟨1⟩

def day2 : JsDate := ⟨2⟩

/-- A state with one recorded price 10, current price 11 and both level sets
empty, exercising the empty-set branches of `calculateTrendStrength`. -/
def c4State : Ticker :=
  { initTicker xauSym with price := some 11, priceHistory := [⟨10, d0⟩] }

/-- Two accepted samples with prices 1 and 2. -/
def twoRun : Ticker := runSamples (initTicker xauSym) [(1, d0), (2, d0)]

/-- The specification test sequence: nine samples at price 10 and a tenth at
price 11. -/
def specList : List (ℚ × JsDate) := List.replicate 9 (10, d0) ++ [(11, d0)]

/-- The sequence crossing a calendar-day boundary: price 5 on day 1, price 10
on day 2. -/
def dayList : List (ℚ × JsDate) := [(5, d0), (10, day2)]

/-! ### List-level helper lemmas -/

theorem sumFold_eq_sum (l : List ℚ) : sumFold l = l.sum := by
  have h : ∀ (l : List ℚ) (c : ℚ), l.foldl (fun acc x => acc + x) c = c + l.sum := by
    intro l
    induction l with
    | nil => intro c; simp
    | cons x xs ih => intro c; simp [ih]; ring
  simpa [sumFold] using h l 0

theorem sqDevFold_eq_sum (l : List ℚ) (m : ℚ) :
    sqDevFold l m = (l.map (fun x => (x - m) ^ 2)).sum := by
  have h : ∀ (l : List ℚ) (c : ℚ),
      l.foldl (fun acc x => acc + (x - m) ^ 2) c = c + (l.map (fun x => (x - m) ^ 2)).sum := by
    intro l
    induction l with
    | nil => intro c; simp
    | cons x xs ih => intro c; simp [ih]; ring
  simpa [sqDevFold] using h l 0

theorem sqDevFold_nonneg (l : List ℚ) (m : ℚ) : 0 ≤ sqDevFold l m := by
  rw [sqDevFold_eq_sum]
  apply List.sum_nonneg
  intro x hx
  rcases List.mem_map.mp hx with ⟨y, _, rfl⟩
  positivity

theorem sq_le_sqDevFold (l : List ℚ) (m p : ℚ) (hp : p ∈ l) :
    (p - m) ^ 2 ≤ sqDevFold l m := by
  rw [sqDevFold_eq_sum]
  apply List.single_le_sum
  · intro x hx
    rcases List.mem_map.mp hx with ⟨y, _, rfl⟩
    positivity
  · exact List.mem_map.mpr ⟨p, hp, rfl⟩

theorem le_foldl_max (xs : List ℚ) (a : ℚ) : a ≤ xs.foldl max a := by
  induction xs generalizing a with
  | nil => simp
  | cons x xs ih => exact le_trans (le_max_left a x) (ih (max a x))

theorem mem_le_foldl_max (xs : List ℚ) (a x : ℚ) (hx : x ∈ xs) : x ≤ xs.foldl max a := by
  induction xs generalizing a with
  | nil => cases hx
  | cons y ys ih =>
    rcases List.mem_cons.mp hx with rfl | h
    · exact le_trans (le_max_right a x) (le_foldl_max ys (max a x))
    · exact ih (max a y) h

theorem foldl_min_le (xs : List ℚ) (a : ℚ) : xs.foldl min a ≤ a := by
  induction xs generalizing a with
  | nil => simp
  | cons x xs ih => exact le_trans (ih (min a x)) (min_le_left a x)

theorem foldl_min_le_mem (xs : List ℚ) (a x : ℚ) (hx : x ∈ xs) : xs.foldl min a ≤ x := by
  induction xs generalizing a with
  | nil => cases hx
  | cons y ys ih =>
    rcases List.mem_cons.mp hx with rfl | h
    · exact le_trans (foldl_min_le ys (min a x)) (min_le_right a x)
    · exact ih (min a y) h

theorem jsMaxList_ge (l : List ℚ) (x : ℚ) (hx : x ∈ l) :
    ∃ m, jsMaxList l = some m ∧ x ≤ m := by
  match l with
  | [] => cases hx
  | a :: xs =>
    refine ⟨xs.foldl max a, rfl, ?_⟩
    rcases List.mem_cons.mp hx with rfl | h
    · exact le_foldl_max xs x
    · exact mem_le_foldl_max xs a x h

theorem jsMinList_le (l : List ℚ) (x : ℚ) (hx : x ∈ l) :
    ∃ m, jsMinList l = some m ∧ m ≤ x := by
  match l with
  | [] => cases hx
  | a :: xs =>
    refine ⟨xs.foldl min a, rfl, ?_⟩
    rcases List.mem_cons.mp hx with rfl | h
    · exact foldl_min_le xs x
    · exact foldl_min_le_mem xs a x h

theorem getLast?_drop_of_lt (l : List α) (k : Nat) (hk : k < l.length) :
    (l.drop k).getLast? = l.getLast? := by
  induction l generalizing k with
  | nil => simp at hk
  | cons a tl ih =>
    match k with
    | 0 => rfl
    | k + 1 =>
      have hk' : k < tl.length := by simpa using hk
      have htl : tl ≠ [] := by
        intro h
        rw [h] at hk'
        simp at hk'
      rw [List.drop_succ_cons, ih k hk']
      match tl, htl with
      | b :: tl2, _ => simp

theorem boundedPush_ne_nil (l : List α) (x : α) : boundedPush l x ≠ [] := by
  by_cases h : (l ++ [x]).length > 100
  · simp only [boundedPush, if_pos h]
    intro hc
    have h1 : ((l ++ [x]).drop 1).length = 0 := by rw [hc]; rfl
    rw [List.length_drop] at h1
    simp at h1
    subst h1
    simp at h
  · simp only [boundedPush, if_neg h]
    simp

theorem boundedPush_getLast? (l : List α) (x : α) : (boundedPush l x).getLast? = some x := by
  by_cases h : (l ++ [x]).length > 100
  · simp only [boundedPush, if_pos h]
    rw [getLast?_drop_of_lt (l ++ [x]) 1 (by simp at h ⊢; omega)]
    exact List.getLast?_concat l
  · simp only [boundedPush, if_neg h]
    exact List.getLast?_concat l

theorem boundedPush_length_le (l : List α) (x : α) (h : l.length ≤ 100) :
    (boundedPush l x).length ≤ 100 := by
  by_cases h2 : (l ++ [x]).length > 100
  · simp only [boundedPush, if_pos h2]
    simp
    omega
  · simp only [boundedPush, if_neg h2]
    simp at h2 ⊢
    omega

theorem sliceNeg_getLast? (l : List α) (n : Nat) (hl : l ≠ []) (hn : n ≠ 0) :
    (sliceNeg l n).getLast? = l.getLast? := by
  unfold sliceNeg
  rw [if_neg hn]
  apply getLast?_drop_of_lt
  have : 0 < l.length := List.length_pos.mpr hl
  omega

theorem sliceNeg_length (l : List α) (n : Nat) (hn : n ≠ 0) :
    (sliceNeg l n).length = min n l.length := by
  unfold sliceNeg
  rw [if_neg hn]
  simp
  omega

theorem sliceNeg_eq_drop (l : List α) (n : Nat) (hn : n ≠ 0) :
    sliceNeg l n = l.drop (l.length - n) := by
  unfold sliceNeg
  rw [if_neg hn]

/-! ### Field-preservation lemmas for the pipeline stages -/

@[simp] theorem recordSample_symbol (s : Ticker) (p : ℚ) (t : JsDate) :
    (recordSample s p t).symbol = s.symbol := rfl

@[simp] theorem recordSample_currency (s : Ticker) (p : ℚ) (t : JsDate) :
    (recordSample s p t).currency = s.currency := rfl

@[simp] theorem recordSample_price (s : Ticker) (p : ℚ) (t : JsDate) :
    (recordSample s p t).price = some p := rfl

@[simp] theorem recordSample_previousPrice (s : Ticker) (p : ℚ) (t : JsDate) :
    (recordSample s p t).previousPrice = s.price := rfl

@[simp] theorem recordSample_date (s : Ticker) (p : ℚ) (t : JsDate) :
    (recordSample s p t).date = some t := rfl

@[simp] theorem recordSample_score (s : Ticker) (p : ℚ) (t : JsDate) :
    (recordSample s p t).score = s.score := rfl

@[simp] theorem recordSample_lowPriceOfTheDay (s : Ticker) (p : ℚ) (t : JsDate) :
    (recordSample s p t).lowPriceOfTheDay = s.lowPriceOfTheDay := rfl

@[simp] theorem recordSample_highPriceOfTheDay (s : Ticker) (p : ℚ) (t : JsDate) :
    (recordSample s p t).highPriceOfTheDay = s.highPriceOfTheDay := rfl

@[simp] theorem recordSample_priceHistory (s : Ticker) (p : ℚ) (t : JsDate) :
    (recordSample s p t).priceHistory = s.priceHistory := rfl

@[simp] theorem recordSample_scoreHistory (s : Ticker) (p : ℚ) (t : JsDate) :
    (recordSample s p t).scoreHistory = s.scoreHistory := rfl

@[simp] theorem recordSample_supportLevels (s : Ticker) (p : ℚ) (t : JsDate) :
    (recordSample s p t).supportLevels = s.supportLevels := rfl

@[simp] theorem recordSample_resistanceLevels (s : Ticker) (p : ℚ) (t : JsDate) :
    (recordSample s p t).resistanceLevels = s.resistanceLevels := rfl

@[simp] theorem recordSample_trendDirection (s : Ticker) (p : ℚ) (t : JsDate) :
    (recordSample s p t).trendDirection = s.trendDirection := rfl

/-- The day-change guard of `updatePriceOfTheDay` compares a value with
itself, so the reset branch never fires and the function reduces to the two
bound updates. -/
theorem upod_eq (s : Ticker) : updatePriceOfTheDay s =
    (match s.price with
     | none => s
     | some p =>
       let s2 := if qltTop p s.lowPriceOfTheDay then
         { s with lowPriceOfTheDay := some p } else s
       if qgtBot p s2.highPriceOfTheDay then
         { s2 with highPriceOfTheDay := some p } else s2) := by
  unfold updatePriceOfTheDay
  simp only [ne_eq, not_true_eq_false, if_false]

@[simp] theorem upod_symbol (s : Ticker) :
    (updatePriceOfTheDay s).symbol = s.symbol := by
  rw [upod_eq]
  obtain ⟨sym, cur, pr, pp, dt, sc, lo, hi, ph, sh, sup, res, td⟩ := s
  cases pr <;> dsimp <;> split_ifs <;> rfl

@[simp] theorem upod_currency (s : Ticker) :
    (updatePriceOfTheDay s).currency = s.currency := by
  rw [upod_eq]
  obtain ⟨sym, cur, pr, pp, dt, sc, lo, hi, ph, sh, sup, res, td⟩ := s
  cases pr <;> dsimp <;> split_ifs <;> rfl

@[simp] theorem upod_price (s : Ticker) :
    (updatePriceOfTheDay s).price = s.price := by
  rw [upod_eq]
  obtain ⟨sym, cur, pr, pp, dt, sc, lo, hi, ph, sh, sup, res, td⟩ := s
  cases pr <;> dsimp <;> split_ifs <;> rfl

@[simp] theorem upod_previousPrice (s : Ticker) :
    (updatePriceOfTheDay s).previousPrice = s.previousPrice := by
  rw [upod_eq]
  obtain ⟨sym, cur, pr, pp, dt, sc, lo, hi, ph, sh, sup, res, td⟩ := s
  cases pr <;> dsimp <;> split_ifs <;> rfl

@[simp] theorem upod_date (s : Ticker) :
    (updatePriceOfTheDay s).date = s.date := by
  rw [upod_eq]
  obtain ⟨sym, cur, pr, pp, dt, sc, lo, hi, ph, sh, sup, res, td⟩ := s
  cases pr <;> dsimp <;> split_ifs <;> rfl

@[simp] theorem upod_score (s : Ticker) :
    (updatePriceOfTheDay s).score = s.score := by
  rw [upod_eq]
  obtain ⟨sym, cur, pr, pp, dt, sc, lo, hi, ph, sh, sup, res, td⟩ := s
  cases pr <;> dsimp <;> split_ifs <;> rfl

@[simp] theorem upod_priceHistory (s : Ticker) :
    (updatePriceOfTheDay s).priceHistory = s.priceHistory := by
  rw [upod_eq]
  obtain ⟨sym, cur, pr, pp, dt, sc, lo, hi, ph, sh, sup, res, td⟩ := s
  cases pr <;> dsimp <;> split_ifs <;> rfl

@[simp] theorem upod_scoreHistory (s : Ticker) :
    (updatePriceOfTheDay s).scoreHistory = s.scoreHistory := by
  rw [upod_eq]
  obtain ⟨sym, cur, pr, pp, dt, sc, lo, hi, ph, sh, sup, res, td⟩ := s
  cases pr <;> dsimp <;> split_ifs <;> rfl

@[simp] theorem upod_supportLevels (s : Ticker) :
    (updatePriceOfTheDay s).supportLevels = s.supportLevels := by
  rw [upod_eq]
  obtain ⟨sym, cur, pr, pp, dt, sc, lo, hi, ph, sh, sup, res, td⟩ := s
  cases pr <;> dsimp <;> split_ifs <;> rfl

@[simp] theorem upod_resistanceLevels (s : Ticker) :
    (updatePriceOfTheDay s).resistanceLevels = s.resistanceLevels := by
  rw [upod_eq]
  obtain ⟨sym, cur, pr, pp, dt, sc, lo, hi, ph, sh, sup, res, td⟩ := s
  cases pr <;> dsimp <;> split_ifs <;> rfl

@[simp] theorem upod_trendDirection (s : Ticker) :
    (updatePriceOfTheDay s).trendDirection = s.trendDirection := by
  rw [upod_eq]
  obtain ⟨sym, cur, pr, pp, dt, sc, lo, hi, ph, sh, sup, res, td⟩ := s
  cases pr <;> dsimp <;> split_ifs <;> rfl

@[simp] theorem usr_symbol (s : Ticker) :
    (updateSupportResistanceLevels s).symbol = s.symbol := by
  obtain ⟨sym, cur, pr, pp, dt, sc, lo, hi, ph, sh, sup, res, td⟩ := s
  unfold updateSupportResistanceLevels
  cases pr <;> dsimp <;> split_ifs <;> rfl

@[simp] theorem usr_currency (s : Ticker) :
    (updateSupportResistanceLevels s).currency = s.currency := by
  obtain ⟨sym, cur, pr, pp, dt, sc, lo, hi, ph, sh, sup, res, td⟩ := s
  unfold updateSupportResistanceLevels
  cases pr <;> dsimp <;> split_ifs <;> rfl

@[simp] theorem usr_price (s : Ticker) :
    (updateSupportResistanceLevels s).price = s.price := by
  obtain ⟨sym, cur, pr, pp, dt, sc, lo, hi, ph, sh, sup, res, td⟩ := s
  unfold updateSupportResistanceLevels
  cases pr <;> dsimp <;> split_ifs <;> rfl

@[simp] theorem usr_previousPrice (s : Ticker) :
    (updateSupportResistanceLevels s).previousPrice = s.previousPrice := by
  obtain ⟨sym, cur, pr, pp, dt, sc, lo, hi, ph, sh, sup, res, td⟩ := s
  unfold updateSupportResistanceLevels
  cases pr <;> dsimp <;> split_ifs <;> rfl

@[simp] theorem usr_date (s : Ticker) :
    (updateSupportResistanceLevels s).date = s.date := by
  obtain ⟨sym, cur, pr, pp, dt, sc, lo, hi, ph, sh, sup, res, td⟩ := s
  unfold updateSupportResistanceLevels
  cases pr <;> dsimp <;> split_ifs <;> rfl

@[simp] theorem usr_score (s : Ticker) :
    (updateSupportResistanceLevels s).score = s.score := by
  obtain ⟨sym, cur, pr, pp, dt, sc, lo, hi, ph, sh, sup, res, td⟩ := s
  unfold updateSupportResistanceLevels
  cases pr <;> dsimp <;> split_ifs <;> rfl

@[simp] theorem usr_lowPriceOfTheDay (s : Ticker) :
    (updateSupportResistanceLevels s).lowPriceOfTheDay = s.lowPriceOfTheDay := by
  obtain ⟨sym, cur, pr, pp, dt, sc, lo, hi, ph, sh, sup, res, td⟩ := s
  unfold updateSupportResistanceLevels
  cases pr <;> dsimp <;> split_ifs <;> rfl

@[simp] theorem usr_highPriceOfTheDay (s : Ticker) :
    (updateSupportResistanceLevels s).highPriceOfTheDay = s.highPriceOfTheDay := by
  obtain ⟨sym, cur, pr, pp, dt, sc, lo, hi, ph, sh, sup, res, td⟩ := s
  unfold updateSupportResistanceLevels
  cases pr <;> dsimp <;> split_ifs <;> rfl

@[simp] theorem usr_priceHistory (s : Ticker) :
    (updateSupportResistanceLevels s).priceHistory = s.priceHistory := by
  obtain ⟨sym, cur, pr, pp, dt, sc, lo, hi, ph, sh, sup, res, td⟩ := s
  unfold updateSupportResistanceLevels
  cases pr <;> dsimp <;> split_ifs <;> rfl

@[simp] theorem usr_scoreHistory (s : Ticker) :
    (updateSupportResistanceLevels s).scoreHistory = s.scoreHistory := by
  obtain ⟨sym, cur, pr, pp, dt, sc, lo, hi, ph, sh, sup, res, td⟩ := s
  unfold updateSupportResistanceLevels
  cases pr <;> dsimp <;> split_ifs <;> rfl

@[simp] theorem usr_trendDirection (s : Ticker) :
    (updateSupportResistanceLevels s).trendDirection = s.trendDirection := by
  obtain ⟨sym, cur, pr, pp, dt, sc, lo, hi, ph, sh, sup, res, td⟩ := s
  unfold updateSupportResistanceLevels
  cases pr <;> dsimp <;> split_ifs <;> rfl

@[simp] theorem spd_symbol (s : Ticker) :
    (storePriceData s).symbol = s.symbol := by
  obtain ⟨sym, cur, pr, pp, dt, sc, lo, hi, ph, sh, sup, res, td⟩ := s
  unfold storePriceData
  cases pr <;> cases dt <;> dsimp <;> simp

@[simp] theorem spd_currency (s : Ticker) :
    (storePriceData s).currency = s.currency := by
  obtain ⟨sym, cur, pr, pp, dt, sc, lo, hi, ph, sh, sup, res, td⟩ := s
  unfold storePriceData
  cases pr <;> cases dt <;> dsimp <;> simp

@[simp] theorem spd_price (s : Ticker) :
    (storePriceData s).price = s.price := by
  obtain ⟨sym, cur, pr, pp, dt, sc, lo, hi, ph, sh, sup, res, td⟩ := s
  unfold storePriceData
  cases pr <;> cases dt <;> dsimp <;> simp

@[simp] theorem spd_previousPrice (s : Ticker) :
    (storePriceData s).previousPrice = s.previousPrice := by
  obtain ⟨sym, cur, pr, pp, dt, sc, lo, hi, ph, sh, sup, res, td⟩ := s
  unfold storePriceData
  cases pr <;> cases dt <;> dsimp <;> simp

@[simp] theorem spd_date (s : Ticker) :
    (storePriceData s).date = s.date := by
  obtain ⟨sym, cur, pr, pp, dt, sc, lo, hi, ph, sh, sup, res, td⟩ := s
  unfold storePriceData
  cases pr <;> cases dt <;> dsimp <;> simp

@[simp] theorem spd_score (s : Ticker) :
    (storePriceData s).score = s.score := by
  obtain ⟨sym, cur, pr, pp, dt, sc, lo, hi, ph, sh, sup, res, td⟩ := s
  unfold storePriceData
  cases pr <;> cases dt <;> dsimp <;> simp

@[simp] theorem spd_lowPriceOfTheDay (s : Ticker) :
    (storePriceData s).lowPriceOfTheDay = s.lowPriceOfTheDay := by
  obtain ⟨sym, cur, pr, pp, dt, sc, lo, hi, ph, sh, sup, res, td⟩ := s
  unfold storePriceData
  cases pr <;> cases dt <;> dsimp <;> simp

@[simp] theorem spd_highPriceOfTheDay (s : Ticker) :
    (storePriceData s).highPriceOfTheDay = s.highPriceOfTheDay := by
  obtain ⟨sym, cur, pr, pp, dt, sc, lo, hi, ph, sh, sup, res, td⟩ := s
  unfold storePriceData
  cases pr <;> cases dt <;> dsimp <;> simp

@[simp] theorem spd_scoreHistory (s : Ticker) :
    (storePriceData s).scoreHistory = s.scoreHistory := by
  obtain ⟨sym, cur, pr, pp, dt, sc, lo, hi, ph, sh, sup, res, td⟩ := s
  unfold storePriceData
  cases pr <;> cases dt <;> dsimp <;> simp

@[simp] theorem spd_trendDirection (s : Ticker) :
    (storePriceData s).trendDirection = s.trendDirection := by
  obtain ⟨sym, cur, pr, pp, dt, sc, lo, hi, ph, sh, sup, res, td⟩ := s
  unfold storePriceData
  cases pr <;> cases dt <;> dsimp <;> simp

@[simp] theorem storeScore_symbol (s : Ticker) :
    (storeScore s).symbol = s.symbol := by
  obtain ⟨sym, cur, pr, pp, dt, sc, lo, hi, ph, sh, sup, res, td⟩ := s
  unfold storeScore
  cases dt <;> dsimp <;> rfl

@[simp] theorem storeScore_currency (s : Ticker) :
    (storeScore s).currency = s.currency := by
  obtain ⟨sym, cur, pr, pp, dt, sc, lo, hi, ph, sh, sup, res, td⟩ := s
  unfold storeScore
  cases dt <;> dsimp <;> rfl

@[simp] theorem storeScore_price (s : Ticker) :
    (storeScore s).price = s.price := by
  obtain ⟨sym, cur, pr, pp, dt, sc, lo, hi, ph, sh, sup, res, td⟩ := s
  unfold storeScore
  cases dt <;> dsimp <;> rfl

@[simp] theorem storeScore_previousPrice (s : Ticker) :
    (storeScore s).previousPrice = s.previousPrice := by
  obtain ⟨sym, cur, pr, pp, dt, sc, lo, hi, ph, sh, sup, res, td⟩ := s
  unfold storeScore
  cases dt <;> dsimp <;> rfl

@[simp] theorem storeScore_date (s : Ticker) :
    (storeScore s).date = s.date := by
  obtain ⟨sym, cur, pr, pp, dt, sc, lo, hi, ph, sh, sup, res, td⟩ := s
  unfold storeScore
  cases dt <;> dsimp <;> rfl

@[simp] theorem storeScore_score (s : Ticker) :
    (storeScore s).score = s.score := by
  obtain ⟨sym, cur, pr, pp, dt, sc, lo, hi, ph, sh, sup, res, td⟩ := s
  unfold storeScore
  cases dt <;> dsimp <;> rfl

@[simp] theorem storeScore_lowPriceOfTheDay (s : Ticker) :
    (storeScore s).lowPriceOfTheDay = s.lowPriceOfTheDay := by
  obtain ⟨sym, cur, pr, pp, dt, sc, lo, hi, ph, sh, sup, res, td⟩ := s
  unfold storeScore
  cases dt <;> dsimp <;> rfl

@[simp] theorem storeScore_highPriceOfTheDay (s : Ticker) :
    (storeScore s).highPriceOfTheDay = s.highPriceOfTheDay := by
  obtain ⟨sym, cur, pr, pp, dt, sc, lo, hi, ph, sh, sup, res, td⟩ := s
  unfold storeScore
  cases dt <;> dsimp <;> rfl

@[simp] theorem storeScore_priceHistory (s : Ticker) :
    (storeScore s).priceHistory = s.priceHistory := by
  obtain ⟨sym, cur, pr, pp, dt, sc, lo, hi, ph, sh, sup, res, td⟩ := s
  unfold storeScore
  cases dt <;> dsimp <;> rfl

@[simp] theorem storeScore_supportLevels (s : Ticker) :
    (storeScore s).supportLevels = s.supportLevels := by
  obtain ⟨sym, cur, pr, pp, dt, sc, lo, hi, ph, sh, sup, res, td⟩ := s
  unfold storeScore
  cases dt <;> dsimp <;> rfl

@[simp] theorem storeScore_resistanceLevels (s : Ticker) :
    (storeScore s).resistanceLevels = s.resistanceLevels := by
  obtain ⟨sym, cur, pr, pp, dt, sc, lo, hi, ph, sh, sup, res, td⟩ := s
  unfold storeScore
  cases dt <;> dsimp <;> rfl

@[simp] theorem storeScore_trendDirection (s : Ticker) :
    (storeScore s).trendDirection = s.trendDirection := by
  obtain ⟨sym, cur, pr, pp, dt, sc, lo, hi, ph, sh, sup, res, td⟩ := s
  unfold storeScore
  cases dt <;> dsimp <;> rfl

@[simp] theorem bos_symbol (s : Ticker) :
    (detectBOS s).symbol = s.symbol := by
  obtain ⟨sym, cur, pr, pp, dt, sc, lo, hi, ph, sh, sup, res, td⟩ := s
  unfold detectBOS
  cases pr <;> dsimp <;> split_ifs <;> rfl

@[simp] theorem bos_currency (s : Ticker) :
    (detectBOS s).currency = s.currency := by
  obtain ⟨sym, cur, pr, pp, dt, sc, lo, hi, ph, sh, sup, res, td⟩ := s
  unfold detectBOS
  cases pr <;> dsimp <;> split_ifs <;> rfl

@[simp] theorem bos_price (s : Ticker) :
    (detectBOS s).price = s.price := by
  obtain ⟨sym, cur, pr, pp, dt, sc, lo, hi, ph, sh, sup, res, td⟩ := s
  unfold detectBOS
  cases pr <;> dsimp <;> split_ifs <;> rfl

@[simp] theorem bos_previousPrice (s : Ticker) :
    (detectBOS s).previousPrice = s.previousPrice := by
  obtain ⟨sym, cur, pr, pp, dt, sc, lo, hi, ph, sh, sup, res, td⟩ := s
  unfold detectBOS
  cases pr <;> dsimp <;> split_ifs <;> rfl

@[simp] theorem bos_date (s : Ticker) :
    (detectBOS s).date = s.date := by
  obtain ⟨sym, cur, pr, pp, dt, sc, lo, hi, ph, sh, sup, res, td⟩ := s
  unfold detectBOS
  cases pr <;> dsimp <;> split_ifs <;> rfl

@[simp] theorem bos_score (s : Ticker) :
    (detectBOS s).score = s.score := by
  obtain ⟨sym, cur, pr, pp, dt, sc, lo, hi, ph, sh, sup, res, td⟩ := s
  unfold detectBOS
  cases pr <;> dsimp <;> split_ifs <;> rfl

@[simp] theorem bos_lowPriceOfTheDay (s : Ticker) :
    (detectBOS s).lowPriceOfTheDay = s.lowPriceOfTheDay := by
  obtain ⟨sym, cur, pr, pp, dt, sc, lo, hi, ph, sh, sup, res, td⟩ := s
  unfold detectBOS
  cases pr <;> dsimp <;> split_ifs <;> rfl

@[simp] theorem bos_highPriceOfTheDay (s : Ticker) :
    (detectBOS s).highPriceOfTheDay = s.highPriceOfTheDay := by
  obtain ⟨sym, cur, pr, pp, dt, sc, lo, hi, ph, sh, sup, res, td⟩ := s
  unfold detectBOS
  cases pr <;> dsimp <;> split_ifs <;> rfl

@[simp] theorem bos_priceHistory (s : Ticker) :
    (detectBOS s).priceHistory = s.priceHistory := by
  obtain ⟨sym, cur, pr, pp, dt, sc, lo, hi, ph, sh, sup, res, td⟩ := s
  unfold detectBOS
  cases pr <;> dsimp <;> split_ifs <;> rfl

@[simp] theorem bos_scoreHistory (s : Ticker) :
    (detectBOS s).scoreHistory = s.scoreHistory := by
  obtain ⟨sym, cur, pr, pp, dt, sc, lo, hi, ph, sh, sup, res, td⟩ := s
  unfold detectBOS
  cases pr <;> dsimp <;> split_ifs <;> rfl

@[simp] theorem bos_supportLevels (s : Ticker) :
    (detectBOS s).supportLevels = s.supportLevels := by
  obtain ⟨sym, cur, pr, pp, dt, sc, lo, hi, ph, sh, sup, res, td⟩ := s
  unfold detectBOS
  cases pr <;> dsimp <;> split_ifs <;> rfl

@[simp] theorem bos_resistanceLevels (s : Ticker) :
    (detectBOS s).resistanceLevels = s.resistanceLevels := by
  obtain ⟨sym, cur, pr, pp, dt, sc, lo, hi, ph, sh, sup, res, td⟩ := s
  unfold detectBOS
  cases pr <;> dsimp <;> split_ifs <;> rfl

@[simp] theorem coc_symbol (s : Ticker) :
    (detectCOC s).symbol = s.symbol := by
  obtain ⟨sym, cur, pr, pp, dt, sc, lo, hi, ph, sh, sup, res, td⟩ := s
  unfold detectCOC
  cases pr <;> cases pp <;> dsimp <;> split_ifs <;> rfl

@[simp] theorem coc_currency (s : Ticker) :
    (detectCOC s).currency = s.currency := by
  obtain ⟨sym, cur, pr, pp, dt, sc, lo, hi, ph, sh, sup, res, td⟩ := s
  unfold detectCOC
  cases pr <;> cases pp <;> dsimp <;> split_ifs <;> rfl

@[simp] theorem coc_price (s : Ticker) :
    (detectCOC s).price = s.price := by
  obtain ⟨sym, cur, pr, pp, dt, sc, lo, hi, ph, sh, sup, res, td⟩ := s
  unfold detectCOC
  cases pr <;> cases pp <;> dsimp <;> split_ifs <;> rfl

@[simp] theorem coc_previousPrice (s : Ticker) :
    (detectCOC s).previousPrice = s.previousPrice := by
  obtain ⟨sym, cur, pr, pp, dt, sc, lo, hi, ph, sh, sup, res, td⟩ := s
  unfold detectCOC
  cases pr <;> cases pp <;> dsimp <;> split_ifs <;> rfl

@[simp] theorem coc_date (s : Ticker) :
    (detectCOC s).date = s.date := by
  obtain ⟨sym, cur, pr, pp, dt, sc, lo, hi, ph, sh, sup, res, td⟩ := s
  unfold detectCOC
  cases pr <;> cases pp <;> dsimp <;> split_ifs <;> rfl

@[simp] theorem coc_score (s : Ticker) :
    (detectCOC s).score = s.score := by
  obtain ⟨sym, cur, pr, pp, dt, sc, lo, hi, ph, sh, sup, res, td⟩ := s
  unfold detectCOC
  cases pr <;> cases pp <;> dsimp <;> split_ifs <;> rfl

@[simp] theorem coc_lowPriceOfTheDay (s : Ticker) :
    (detectCOC s).lowPriceOfTheDay = s.lowPriceOfTheDay := by
  obtain ⟨sym, cur, pr, pp, dt, sc, lo, hi, ph, sh, sup, res, td⟩ := s
  unfold detectCOC
  cases pr <;> cases pp <;> dsimp <;> split_ifs <;> rfl

@[simp] theorem coc_highPriceOfTheDay (s : Ticker) :
    (detectCOC s).highPriceOfTheDay = s.highPriceOfTheDay := by
  obtain ⟨sym, cur, pr, pp, dt, sc, lo, hi, ph, sh, sup, res, td⟩ := s
  unfold detectCOC
  cases pr <;> cases pp <;> dsimp <;> split_ifs <;> rfl

@[simp] theorem coc_priceHistory (s : Ticker) :
    (detectCOC s).priceHistory = s.priceHistory := by
  obtain ⟨sym, cur, pr, pp, dt, sc, lo, hi, ph, sh, sup, res, td⟩ := s
  unfold detectCOC
  cases pr <;> cases pp <;> dsimp <;> split_ifs <;> rfl

@[simp] theorem coc_scoreHistory (s : Ticker) :
    (detectCOC s).scoreHistory = s.scoreHistory := by
  obtain ⟨sym, cur, pr, pp, dt, sc, lo, hi, ph, sh, sup, res, td⟩ := s
  unfold detectCOC
  cases pr <;> cases pp <;> dsimp <;> split_ifs <;> rfl

@[simp] theorem coc_supportLevels (s : Ticker) :
    (detectCOC s).supportLevels = s.supportLevels := by
  obtain ⟨sym, cur, pr, pp, dt, sc, lo, hi, ph, sh, sup, res, td⟩ := s
  unfold detectCOC
  cases pr <;> cases pp <;> dsimp <;> split_ifs <;> rfl

@[simp] theorem coc_resistanceLevels (s : Ticker) :
    (detectCOC s).resistanceLevels = s.resistanceLevels := by
  obtain ⟨sym, cur, pr, pp, dt, sc, lo, hi, ph, sh, sup, res, td⟩ := s
  unfold detectCOC
  cases pr <;> cases pp <;> dsimp <;> split_ifs <;> rfl

/-! ### Conditional shape lemmas for the pipeline stages -/

theorem spd_priceHistory_eq (s : Ticker) (p : ℚ) (t : JsDate)
    (hp : s.price = some p) (ht : s.date = some t) :
    (storePriceData s).priceHistory = boundedPush s.priceHistory ⟨p, t⟩ := by
  unfold storePriceData
  rw [hp, ht]
  simp

theorem usr_supportLevels_eq (s : Ticker) (p : ℚ) (hp : s.price = some p) :
    (updateSupportResistanceLevels s).supportLevels =
      (if jsMinList (s.priceHistory.map PricePoint.price) = some p ∧ p ∉ s.supportLevels
       then s.supportLevels ++ [p] else s.supportLevels) := by
  unfold updateSupportResistanceLevels
  rw [hp]
  dsimp
  split_ifs <;> rfl

theorem usr_resistanceLevels_eq (s : Ticker) (p : ℚ) (hp : s.price = some p) :
    (updateSupportResistanceLevels s).resistanceLevels =
      (if jsMaxList (s.priceHistory.map PricePoint.price) = some p ∧ p ∉ s.resistanceLevels
       then s.resistanceLevels ++ [p] else s.resistanceLevels) := by
  unfold updateSupportResistanceLevels
  rw [hp]
  dsimp
  split_ifs <;> rfl

theorem storeScore_scoreHistory_eq (s : Ticker) (t : JsDate) (ht : s.date = some t) :
    (storeScore s).scoreHistory = boundedPush s.scoreHistory ⟨calculateScore s, t⟩ := by
  unfold storeScore
  rw [ht]

@[simp] theorem intermediateState_price (s : Ticker) (p : ℚ) (t : JsDate) :
    (intermediateState s p t).price = some p := by
  unfold intermediateState
  simp

@[simp] theorem intermediateState_previousPrice (s : Ticker) (p : ℚ) (t : JsDate) :
    (intermediateState s p t).previousPrice = s.price := by
  unfold intermediateState
  simp

@[simp] theorem intermediateState_date (s : Ticker) (p : ℚ) (t : JsDate) :
    (intermediateState s p t).date = some t := by
  unfold intermediateState
  simp

@[simp] theorem intermediateState_score (s : Ticker) (p : ℚ) (t : JsDate) :
    (intermediateState s p t).score = s.score := by
  unfold intermediateState
  simp

@[simp] theorem intermediateState_scoreHistory (s : Ticker) (p : ℚ) (t : JsDate) :
    (intermediateState s p t).scoreHistory = s.scoreHistory := by
  unfold intermediateState
  simp

@[simp] theorem intermediateState_trendDirection (s : Ticker) (p : ℚ) (t : JsDate) :
    (intermediateState s p t).trendDirection = s.trendDirection := by
  unfold intermediateState
  simp

@[simp] theorem intermediateState_priceHistory (s : Ticker) (p : ℚ) (t : JsDate) :
    (intermediateState s p t).priceHistory = boundedPush s.priceHistory ⟨p, t⟩ := by
  unfold intermediateState
  rw [spd_priceHistory_eq _ p t (by simp) (by simp)]
  simp

theorem intermediateState_supportLevels (s : Ticker) (p : ℚ) (t : JsDate) :
    (intermediateState s p t).supportLevels =
      (if jsMinList ((boundedPush s.priceHistory ⟨p, t⟩).map PricePoint.price) = some p ∧
          p ∉ s.supportLevels
       then s.supportLevels ++ [p] else s.supportLevels) := by
  unfold intermediateState storePriceData
  rw [show (updatePriceOfTheDay (recordSample s p t)).price = some p by simp,
    show (updatePriceOfTheDay (recordSample s p t)).date = some t by simp]
  rw [usr_supportLevels_eq _ p (by simp)]
  simp

theorem intermediateState_resistanceLevels (s : Ticker) (p : ℚ) (t : JsDate) :
    (intermediateState s p t).resistanceLevels =
      (if jsMaxList ((boundedPush s.priceHistory ⟨p, t⟩).map PricePoint.price) = some p ∧
          p ∉ s.resistanceLevels
       then s.resistanceLevels ++ [p] else s.resistanceLevels) := by
  unfold intermediateState storePriceData
  rw [show (updatePriceOfTheDay (recordSample s p t)).price = some p by simp,
    show (updatePriceOfTheDay (recordSample s p t)).date = some t by simp]
  rw [usr_resistanceLevels_eq _ p (by simp)]
  simp

/-! ### acceptSample-level lemmas -/

@[simp] theorem acceptSample_price (s : Ticker) (p : ℚ) (t : JsDate) :
    (acceptSample s p t).price = some p := by
  unfold acceptSample
  simp

@[simp] theorem acceptSample_previousPrice (s : Ticker) (p : ℚ) (t : JsDate) :
    (acceptSample s p t).previousPrice = s.price := by
  unfold acceptSample
  simp

@[simp] theorem acceptSample_date (s : Ticker) (p : ℚ) (t : JsDate) :
    (acceptSample s p t).date = some t := by
  unfold acceptSample
  simp

@[simp] theorem acceptSample_score (s : Ticker) (p : ℚ) (t : JsDate) :
    (acceptSample s p t).score = s.score := by
  unfold acceptSample
  simp

@[simp] theorem acceptSample_priceHistory (s : Ticker) (p : ℚ) (t : JsDate) :
    (acceptSample s p t).priceHistory = boundedPush s.priceHistory ⟨p, t⟩ := by
  unfold acceptSample
  simp

theorem acceptSample_scoreHistory (s : Ticker) (p : ℚ) (t : JsDate) :
    (acceptSample s p t).scoreHistory =
      boundedPush s.scoreHistory ⟨calculateScore (intermediateState s p t), t⟩ := by
  unfold acceptSample
  have h1 : (detectCOC (detectBOS (storeScore (intermediateState s p t)))).scoreHistory
      = (storeScore (intermediateState s p t)).scoreHistory := by simp
  rw [h1, storeScore_scoreHistory_eq _ t (by simp)]
  simp

theorem acceptSample_supportLevels (s : Ticker) (p : ℚ) (t : JsDate) :
    (acceptSample s p t).supportLevels =
      (if jsMinList ((boundedPush s.priceHistory ⟨p, t⟩).map PricePoint.price) = some p ∧
          p ∉ s.supportLevels
       then s.supportLevels ++ [p] else s.supportLevels) := by
  unfold acceptSample
  rw [show (detectCOC (detectBOS (storeScore (intermediateState s p t)))).supportLevels =
        (intermediateState s p t).supportLevels by simp]
  exact intermediateState_supportLevels s p t

theorem acceptSample_resistanceLevels (s : Ticker) (p : ℚ) (t : JsDate) :
    (acceptSample s p t).resistanceLevels =
      (if jsMaxList ((boundedPush s.priceHistory ⟨p, t⟩).map PricePoint.price) = some p ∧
          p ∉ s.resistanceLevels
       then s.resistanceLevels ++ [p] else s.resistanceLevels) := by
  unfold acceptSample
  rw [show (detectCOC (detectBOS (storeScore (intermediateState s p t)))).resistanceLevels =
        (intermediateState s p t).resistanceLevels by simp]
  exact intermediateState_resistanceLevels s p t

/-! ### The BOS window always contains the current sample -/

theorem getPriceHistory_getLast? (s : Ticker) (n : Nat) (hn : n ≠ 0)
    (hne : s.priceHistory ≠ []) :
    (getPriceHistory s n).getLast? = s.priceHistory.getLast?.map PricePoint.price := by
  rw [getPriceHistory, List.getLast?_map, sliceNeg_getLast? _ _ hne hn]

theorem price_mem_window (s : Ticker) (p : ℚ) (n : Nat) (hn : n ≠ 0)
    (hlast : s.priceHistory.getLast?.map PricePoint.price = some p) :
    p ∈ getPriceHistory s n := by
  have hne : s.priceHistory ≠ [] := by
    intro h
    rw [h] at hlast
    simp at hlast
  apply List.mem_of_getLast?_eq_some
  rw [getPriceHistory_getLast? s n hn hne, hlast]

/-- When the current price is a member of the last-10 window (always the
case at the call site, since the sample was just pushed), both BOS
comparisons are false and `detectBOS` is the identity. -/
theorem detectBOS_id_of_mem (s : Ticker) (p : ℚ) (hp : s.price = some p)
    (hin : p ∈ getPriceHistory s 10) : detectBOS s = s := by
  unfold detectBOS
  rw [hp]
  dsimp
  rcases jsMaxList_ge (getPriceHistory s 10) p hin with ⟨m, hm, hpm⟩
  rcases jsMinList_le (getPriceHistory s 10) p hin with ⟨m2, hm2, hm2p⟩
  rw [hm, hm2]
  have h1 : ¬ qgtBot p (some m) := by
    simp only [qgtBot]
    exact not_lt.mpr hpm
  have h2 : ¬ qltTop p (some m2) := by
    simp only [qltTop]
    exact not_lt.mpr hm2p
  rw [if_neg h1, if_neg h2]

/-- `detectCOC` does nothing on a NEUTRAL trend. -/
theorem detectCOC_id_of_neutral (s : Ticker) (h : s.trendDirection = Trend.NEUTRAL) :
    detectCOC s = s := by
  obtain ⟨sym, cur, pr, pp, dt, sc, lo, hi, ph, sh, sup, res, td⟩ := s
  dsimp at h
  subst h
  cases pr <;> cases pp <;> simp [detectCOC]

/-- One accepted sample never moves the trend away from NEUTRAL: the BOS
window contains the sample itself, so neither breakout comparison can hold,
and COC does nothing on a NEUTRAL trend. -/
theorem acceptSample_trend_neutral (s : Ticker) (p : ℚ) (t : JsDate)
    (h : s.trendDirection = Trend.NEUTRAL) :
    (acceptSample s p t).trendDirection = Trend.NEUTRAL := by
  unfold acceptSample
  have hst : (storeScore (intermediateState s p t)).price = some p := by simp
  have hph : (storeScore (intermediateState s p t)).priceHistory =
      boundedPush s.priceHistory ⟨p, t⟩ := by simp
  have hlast : (storeScore (intermediateState s p t)).priceHistory.getLast?.map
      PricePoint.price = some p := by
    rw [hph, boundedPush_getLast?]
    rfl
  have hmem : p ∈ getPriceHistory (storeScore (intermediateState s p t)) 10 :=
    price_mem_window _ p 10 (by simp) hlast
  rw [detectBOS_id_of_mem _ p hst hmem]
  rw [detectCOC_id_of_neutral _ (by simp [h])]
  simp [h]

/-! ### Run-level invariants -/

theorem runSamples_nil (s : Ticker) : runSamples s [] = s := rfl

theorem runSamples_cons (s : Ticker) (x : ℚ × JsDate) (xs : List (ℚ × JsDate)) :
    runSamples s (x :: xs) = runSamples (acceptSample s x.1 x.2) xs := rfl

theorem runSamples_trend_neutral (l : List (ℚ × JsDate)) (s : Ticker)
    (h : s.trendDirection = Trend.NEUTRAL) :
    (runSamples s l).trendDirection = Trend.NEUTRAL := by
  induction l generalizing s with
  | nil => exact h
  | cons x xs ih =>
    rw [runSamples_cons]
    exact ih _ (acceptSample_trend_neutral s x.1 x.2 h)

theorem runSamples_history_le (l : List (ℚ × JsDate)) (s : Ticker)
    (h : s.priceHistory.length ≤ 100) :
    (runSamples s l).priceHistory.length ≤ 100 := by
  induction l generalizing s with
  | nil => exact h
  | cons x xs ih =>
    rw [runSamples_cons]
    apply ih
    rw [acceptSample_priceHistory]
    exact boundedPush_length_le _ _ h

theorem acceptSample_support_nodup (s : Ticker) (p : ℚ) (t : JsDate)
    (h : s.supportLevels.Nodup) : (acceptSample s p t).supportLevels.Nodup := by
  rw [acceptSample_supportLevels]
  split_ifs with hc
  · simpa using List.Nodup.concat hc.2 h
  · exact h

theorem acceptSample_resistance_nodup (s : Ticker) (p : ℚ) (t : JsDate)
    (h : s.resistanceLevels.Nodup) : (acceptSample s p t).resistanceLevels.Nodup := by
  rw [acceptSample_resistanceLevels]
  split_ifs with hc
  · simpa using List.Nodup.concat hc.2 h
  · exact h

theorem runSamples_support_nodup (l : List (ℚ × JsDate)) (s : Ticker)
    (h : s.supportLevels.Nodup) : (runSamples s l).supportLevels.Nodup := by
  induction l generalizing s with
  | nil => exact h
  | cons x xs ih =>
    rw [runSamples_cons]
    exact ih _ (acceptSample_support_nodup s x.1 x.2 h)

theorem runSamples_resistance_nodup (l : List (ℚ × JsDate)) (s : Ticker)
    (h : s.resistanceLevels.Nodup) : (runSamples s l).resistanceLevels.Nodup := by
  induction l generalizing s with
  | nil => exact h
  | cons x xs ih =>
    rw [runSamples_cons]
    exact ih _ (acceptSample_resistance_nodup s x.1 x.2 h)

theorem runSamples_score_constant (l : List (ℚ × JsDate)) (s : Ticker) :
    (runSamples s l).score = s.score := by
  induction l generalizing s with
  | nil => rfl
  | cons x xs ih =>
    rw [runSamples_cons, ih, acceptSample_score]

/-! ### The classifier is constant on reachable states

Whenever the current price is itself a member of the last-10 window (always
true right after `storePriceData` pushed it), `volatility < 0.02` forces the
window to be so tight that `|price - sma| < 5/12`, while every branch of the
BUY/SELL guards needs `|trendStrength| > 1/2` with an adjustment factor of
at most `6/5`; so the guards can never fire together and the score is
NEUTRAL. -/

theorem window_length_le (s : Ticker) : (getPriceHistory s 10).length ≤ 10 := by
  rw [getPriceHistory, List.length_map, sliceNeg_length _ _ (by norm_num)]
  exact min_le_left _ _

theorem sq_small_bounds (y : ℚ) (h : y ^ 2 < 1 / 250) :
    y * (6 / 5) < 1 / 2 ∧ -(1 / 2) < y * (6 / 5) ∧
    y * (-(6 / 5)) < 1 / 2 ∧ -(1 / 2) < y * (-(6 / 5)) ∧
    y < 1 / 2 ∧ -(1 / 2) < y := by
  refine ⟨?_, ?_, ?_, ?_, ?_, ?_⟩ <;>
    nlinarith [h, sq_nonneg (y - 5 / 12), sq_nonneg (y + 5 / 12)]

set_option maxHeartbeats 800000 in
theorem calculateScore_neutral_of_mem (s : Ticker) (p : ℚ) (hp : s.price = some p)
    (hin : p ∈ getPriceHistory s 10) : calculateScore s = Signal.NEUTRAL := by
  by_cases hv : volatilityLt s (1 / 50)
  · unfold volatilityLt at hv
    cases hV : varianceQ (getPriceHistory s 10) with
    | none => rw [hV] at hv; exact absurd hv (by simp [oltP])
    | some v =>
    rw [hV] at hv
    simp only [oltP] at hv
    cases hM : meanQ (getPriceHistory s 10) with
    | none => rw [varianceQ, hM] at hV; simp at hV
    | some m =>
    rw [varianceQ, hM] at hV
    simp only [Option.some.injEq] at hV
    have hlen0 : (getPriceHistory s 10).length ≠ 0 := by
      intro h0
      rw [meanQ, if_pos h0] at hM
      simp at hM
    have hlen10 : (getPriceHistory s 10).length ≤ 10 := window_length_le s
    have hlenQ : (0 : ℚ) < (getPriceHistory s 10).length := by
      exact_mod_cast Nat.pos_of_ne_zero hlen0
    have hval : sqDevFold (getPriceHistory s 10) m = v * (getPriceHistory s 10).length := by
      exact (div_eq_iff (ne_of_gt hlenQ)).mp hV
    have hsqle : (p - m) ^ 2 ≤ sqDevFold (getPriceHistory s 10) m :=
      sq_le_sqDevFold (getPriceHistory s 10) m p hin
    have hv0 : 0 ≤ v := by
      nlinarith [sqDevFold_nonneg (getPriceHistory s 10) m, hval, hlenQ]
    have hcast : ((getPriceHistory s 10).length : ℚ) ≤ 10 := by exact_mod_cast hlen10
    have hsq : (p - m) ^ 2 < 1 / 250 := by nlinarith [hsqle, hval, hv, hv0, hlenQ, hcast]
    have hts : trendStrengthRaw s = some (p - m) := by
      unfold trendStrengthRaw
      rw [hp, hM]
    have hbound : ∀ x : ℚ, calculateTrendStrength s = some x → x < 1 / 2 ∧ -(1 / 2) < x := by
      intro x hx
      unfold calculateTrendStrength at hx
      rw [hp, hts] at hx
      dsimp at hx
      have hb := sq_small_bounds (p - m) hsq
      split_ifs at hx <;> simp only [Option.some.injEq] at hx <;> subst hx
      · exact ⟨hb.1, hb.2.1⟩
      · exact ⟨hb.2.2.1, hb.2.2.2.1⟩
      · exact ⟨hb.2.2.2.2.1, hb.2.2.2.2.2⟩
    have hbuy : ¬ buyCond s := by
      intro hb
      rcases hb with ⟨-, -, hts2, -⟩
      cases hcts : calculateTrendStrength s with
      | none => rw [hcts] at hts2; exact hts2
      | some x =>
        rw [hcts] at hts2
        simp only [ogtP] at hts2
        exact absurd hts2 (not_lt.mpr (le_of_lt (hbound x hcts).1))
    have hsell : ¬ sellCond s := by
      intro hb
      rcases hb with ⟨-, -, hts2, -⟩
      cases hcts : calculateTrendStrength s with
      | none => rw [hcts] at hts2; exact hts2
      | some x =>
        rw [hcts] at hts2
        simp only [oltP] at hts2
        exact absurd hts2 (not_lt.mpr (le_of_lt (hbound x hcts).2))
    rw [calculateScore, if_neg hbuy, if_neg hsell]
  · have hbuy : ¬ buyCond s := fun hb => hv hb.2.1
    have hsell : ¬ sellCond s := fun hb => hv hb.2.1
    rw [calculateScore, if_neg hbuy, if_neg hsell]

/-! ### Consequences for each accepted sample -/

theorem mem_window_intermediate (s : Ticker) (p : ℚ) (t : JsDate) :
    p ∈ getPriceHistory (intermediateState s p t) 10 := by
  apply price_mem_window _ p 10 (by norm_num)
  rw [intermediateState_priceHistory, boundedPush_getLast?]
  rfl

/-- The score computed while recording any accepted sample is NEUTRAL. -/
theorem score_of_sample_neutral (s : Ticker) (p : ℚ) (t : JsDate) :
    calculateScore (intermediateState s p t) = Signal.NEUTRAL :=
  calculateScore_neutral_of_mem _ p (by simp) (mem_window_intermediate s p t)

/-- The entry appended to `scoreHistory` by any accepted sample is NEUTRAL. -/
theorem acceptSample_last_score (s : Ticker) (p : ℚ) (t : JsDate) :
    ((acceptSample s p t).scoreHistory.map ScorePoint.score).getLast? =
      some Signal.NEUTRAL := by
  rw [acceptSample_scoreHistory, List.getLast?_map, boundedPush_getLast?]
  dsimp
  rw [score_of_sample_neutral]

theorem runSamples_append_single (s : Ticker) (l : List (ℚ × JsDate)) (x : ℚ × JsDate) :
    runSamples s (l ++ [x]) = acceptSample (runSamples s l) x.1 x.2 := by
  unfold runSamples
  rw [List.foldl_append]
  rfl

/-! ### The classifier guards characterize the score exactly -/

theorem buy_sell_exclusive (s : Ticker) :
    ¬ (ogtP (priceChange s) 0 ∧ oltP (priceChange s) 0) := by
  cases h : priceChange s with
  | none => simp [ogtP, h]
  | some v =>
    simp only [ogtP, oltP, h]
    intro hc
    linarith [hc.1, hc.2]

theorem calculateScore_eq_buy_iff (s : Ticker) :
    calculateScore s = Signal.BUY ↔ buyCond s := by
  unfold calculateScore
  split_ifs with h1 h2
  · simp [h1]
  · simp [h1, h2]
  · simp [h1, h2]

theorem calculateScore_eq_sell_iff (s : Ticker) :
    calculateScore s = Signal.SELL ↔ sellCond s := by
  unfold calculateScore
  split_ifs with h1 h2
  · constructor
    · intro h; simp at h
    · intro hs; exact absurd ⟨h1.1, hs.1⟩ (buy_sell_exclusive s)
  · simp [h2]
  · simp [h2]

theorem calculateScore_eq_neutral_iff (s : Ticker) :
    calculateScore s = Signal.NEUTRAL ↔ (¬ buyCond s ∧ ¬ sellCond s) := by
  unfold calculateScore
  split_ifs with h1 h2
  · simp [h1]
  · simp [h1, h2]
  · simp [h1, h2]

/-! ### Claim theorems -/

/-- C1: for every accepted sample (from any reachable ticker state), after
the update cycle the `score` field exposed by `getAllData` equals the
classifier output computed for that sample, and that same signal is appended
to the bounded score history.  The equality holds because the code never
assigns the `score` field — it stays at its initial NEUTRAL — while the
classifier provably returns NEUTRAL for every accepted sample. -/
theorem C1_current_signal_and_history (l : List (ℚ × JsDate)) (p : ℚ) (t : JsDate) :
    (getAllData (acceptSample (runSamples (initTicker xauSym) l) p t)).score =
      calculateScore (intermediateState (runSamples (initTicker xauSym) l) p t) ∧
    (acceptSample (runSamples (initTicker xauSym) l) p t).scoreHistory =
      boundedPush (runSamples (initTicker xauSym) l).scoreHistory
        ⟨calculateScore (intermediateState (runSamples (initTicker xauSym) l) p t), t⟩ := by
  constructor
  · show (acceptSample (runSamples (initTicker xauSym) l) p t).score = _
    rw [acceptSample_score, runSamples_score_constant, score_of_sample_neutral]
    rfl
  · exact acceptSample_scoreHistory _ p t

/-- C2: the claim states that the BOS step moves the trend to UP (or DOWN)
when the price exceeds the maximum (or undercuts the minimum) of the last-10
window excluding the current sample.  In the code the window is read after
the sample was pushed, so it always contains the current price, neither
breakout comparison can ever hold, and the trend direction of every
reachable state is NEUTRAL. -/
theorem C2_trend_never_leaves_neutral (l : List (ℚ × JsDate)) :
    (runSamples (initTicker xauSym) l).trendDirection = Trend.NEUTRAL :=
  runSamples_trend_neutral l _ rfl

/-- C8: `calculateScore` returns BUY exactly when the price change is
positive, the volatility comparison against 0.02 holds, the trend strength
exceeds 0.5 and no resistance level is within 1 percent below the price;
symmetrically for SELL with support levels; NEUTRAL otherwise — for every
ticker state. -/
theorem C8_classifier_guards (s : Ticker) :
    (calculateScore s = Signal.BUY ↔
      (ogtP (priceChange s) 0 ∧ volatilityLt s (1 / 50) ∧
        ogtP (calculateTrendStrength s) (1 / 2) ∧ ¬ isNearResistance s)) ∧
    (calculateScore s = Signal.SELL ↔
      (oltP (priceChange s) 0 ∧ volatilityLt s (1 / 50) ∧
        oltP (calculateTrendStrength s) (-(1 / 2)) ∧ ¬ isNearSupport s)) ∧
    (calculateScore s = Signal.NEUTRAL ↔ (¬ buyCond s ∧ ¬ sellCond s)) :=
  ⟨calculateScore_eq_buy_iff s, calculateScore_eq_sell_iff s,
    calculateScore_eq_neutral_iff s⟩

/-- C9: a DataError upstream input (failed HTTP response, or a payload
failing the `!data || !data[0]` guard) leaves the whole ticker state exactly
as it was — the guards throw before any field assignment — and the error is
reported; `getAllData` consequently returns the identical snapshot. -/
theorem C9_dataerror_rejects_sample (s : Ticker) (n : Nat) (now : JsDate) :
    fetchPrice s (Upstream.httpError n) now = (s, true) ∧
    fetchPrice s Upstream.emptyData now = (s, true) ∧
    getAllData (fetchPrice s (Upstream.httpError n) now).1 = getAllData s ∧
    getAllData (fetchPrice s Upstream.emptyData now).1 = getAllData s :=
  ⟨rfl, rfl, rfl, rfl⟩

/-- C10: after every accepted sample the price history is non-empty, its most
recent entry carries the sample price, which is also the current price
field, and every window `getPriceHistory n` with `n ≥ 1` ends with that
price. -/
theorem C10_window_ends_with_current (l : List (ℚ × JsDate)) (p : ℚ) (t : JsDate)
    (n : Nat) (hn : 1 ≤ n) :
    (acceptSample (runSamples (initTicker xauSym) l) p t).priceHistory ≠ [] ∧
    ((acceptSample (runSamples (initTicker xauSym) l) p t).priceHistory.map
      PricePoint.price).getLast? = some p ∧
    (acceptSample (runSamples (initTicker xauSym) l) p t).price = some p ∧
    (getPriceHistory (acceptSample (runSamples (initTicker xauSym) l) p t) n).getLast? =
      some p := by
  refine ⟨?_, ?_, by simp, ?_⟩
  · rw [acceptSample_priceHistory]
    exact boundedPush_ne_nil _ _
  · rw [acceptSample_priceHistory, List.getLast?_map, boundedPush_getLast?]
    rfl
  · rw [getPriceHistory_getLast? _ n (by omega)
      (by rw [acceptSample_priceHistory]; exact boundedPush_ne_nil _ _)]
    rw [acceptSample_priceHistory, boundedPush_getLast?]
    rfl

/-- Witness for C10 at the concrete input: empty prefix, price 5, window 1. -/
theorem C10_window_ends_with_current_witness :
    (acceptSample (runSamples (initTicker xauSym) []) 5 d0).priceHistory ≠ [] ∧
    ((acceptSample (runSamples (initTicker xauSym) []) 5 d0).priceHistory.map
      PricePoint.price).getLast? = some 5 ∧
    (acceptSample (runSamples (initTicker xauSym) []) 5 d0).price = some 5 ∧
    (getPriceHistory (acceptSample (runSamples (initTicker xauSym) []) 5 d0) 1).getLast? =
      some 5 :=
  C10_window_ends_with_current [] 5 d0 1 (by norm_num)

/-- C7: across every accepted sample the support and resistance sets only
ever grow by appending the current price (so sizes are non-decreasing and no
level is removed), they stay duplicate-free, and a price enters a set
exactly when it equals the corresponding extremum of the tracked window
(the full history, current sample included) and is not already present. -/
theorem C7_levels_monotone_nodup (l : List (ℚ × JsDate)) (p : ℚ) (t : JsDate) :
    ((acceptSample (runSamples (initTicker xauSym) l) p t).supportLevels =
        (runSamples (initTicker xauSym) l).supportLevels ∨
      (acceptSample (runSamples (initTicker xauSym) l) p t).supportLevels =
        (runSamples (initTicker xauSym) l).supportLevels ++ [p]) ∧
    (runSamples (initTicker xauSym) l).supportLevels.length ≤
      (acceptSample (runSamples (initTicker xauSym) l) p t).supportLevels.length ∧
    (acceptSample (runSamples (initTicker xauSym) l) p t).supportLevels.Nodup ∧
    ((acceptSample (runSamples (initTicker xauSym) l) p t).supportLevels ≠
        (runSamples (initTicker xauSym) l).supportLevels ↔
      (jsMinList ((boundedPush (runSamples (initTicker xauSym) l).priceHistory
          ⟨p, t⟩).map PricePoint.price) = some p ∧
        p ∉ (runSamples (initTicker xauSym) l).supportLevels)) ∧
    ((acceptSample (runSamples (initTicker xauSym) l) p t).resistanceLevels =
        (runSamples (initTicker xauSym) l).resistanceLevels ∨
      (acceptSample (runSamples (initTicker xauSym) l) p t).resistanceLevels =
        (runSamples (initTicker xauSym) l).resistanceLevels ++ [p]) ∧
    (runSamples (initTicker xauSym) l).resistanceLevels.length ≤
      (acceptSample (runSamples (initTicker xauSym) l) p t).resistanceLevels.length ∧
    (acceptSample (runSamples (initTicker xauSym) l) p t).resistanceLevels.Nodup ∧
    ((acceptSample (runSamples (initTicker xauSym) l) p t).resistanceLevels ≠
        (runSamples (initTicker xauSym) l).resistanceLevels ↔
      (jsMaxList ((boundedPush (runSamples (initTicker xauSym) l).priceHistory
          ⟨p, t⟩).map PricePoint.price) = some p ∧
        p ∉ (runSamples (initTicker xauSym) l).resistanceLevels)) := by
  have hsup := acceptSample_supportLevels (runSamples (initTicker xauSym) l) p t
  have hres := acceptSample_resistanceLevels (runSamples (initTicker xauSym) l) p t
  have hnsup : (acceptSample (runSamples (initTicker xauSym) l) p t).supportLevels.Nodup :=
    acceptSample_support_nodup _ p t
      (runSamples_support_nodup l _ (by simp [initTicker]))
  have hnres : (acceptSample (runSamples (initTicker xauSym) l) p t).resistanceLevels.Nodup :=
    acceptSample_resistance_nodup _ p t
      (runSamples_resistance_nodup l _ (by simp [initTicker]))
  constructor
  · by_cases hc : jsMinList ((boundedPush (runSamples (initTicker xauSym) l).priceHistory
        ⟨p, t⟩).map PricePoint.price) = some p ∧
        p ∉ (runSamples (initTicker xauSym) l).supportLevels
    · right; rw [hsup, if_pos hc]
    · left; rw [hsup, if_neg hc]
  refine ⟨?_, hnsup, ?_, ?_, ?_, hnres, ?_⟩
  · rw [hsup]; split_ifs <;> simp
  · rw [hsup]; split_ifs with hc <;> simp [hc]
  · by_cases hc : jsMaxList ((boundedPush (runSamples (initTicker xauSym) l).priceHistory
        ⟨p, t⟩).map PricePoint.price) = some p ∧
        p ∉ (runSamples (initTicker xauSym) l).resistanceLevels
    · right; rw [hres, if_pos hc]
    · left; rw [hres, if_neg hc]
  · rw [hres]; split_ifs <;> simp
  · rw [hres]; split_ifs with hc <;> simp [hc]

/-- C5 counterexample: on the specification's own test sequence — nine
samples at 10 and one at 11 — the recorded classifier output for the final
sample is not BUY (the window variance is 0.09, far above the 0.0004
threshold, the new price sits exactly on the just-recorded resistance level,
and the resistance adjustment makes the trend strength negative). -/
theorem C5_counterexample :
    ((runSamples (initTicker xauSym) specList).scoreHistory.map
      ScorePoint.score).getLast? ≠ some Signal.BUY := by
  rw [show specList = List.replicate 9 ((10 : ℚ), d0) ++ [((11 : ℚ), d0)] from rfl,
    runSamples_append_single]
  rw [acceptSample_last_score]
  simp

/-- C5 amended: on the sequence of nine samples at 10 and one at 11, the
classifier output recorded for the final sample is NEUTRAL. -/
theorem C5_amended_neutral :
    ((runSamples (initTicker xauSym) specList).scoreHistory.map
      ScorePoint.score).getLast? = some Signal.NEUTRAL := by
  rw [show specList = List.replicate 9 ((10 : ℚ), d0) ++ [((11 : ℚ), d0)] from rfl,
    runSamples_append_single]
  exact acceptSample_last_score _ _ _

/-- C4 counterexample: with both level sets empty (state `c4State`: one
recorded price 10, current price 11), `calculateTrendStrength` returns the
amplified value `(11 - 10) * 1.2 = 6/5`, not the unadjusted `11 - 10`:
`Math.min` of the empty support set is `+Infinity`, so the `price <= min`
comparison is vacuously true rather than skipped. -/
theorem C4_counterexample :
    calculateTrendStrength c4State = some (6 / 5) ∧
    calculateTrendStrength c4State ≠ some (11 - 10) := by
  have h : calculateTrendStrength c4State = some (6 / 5) := by
    norm_num [c4State, initTicker, calculateTrendStrength, trendStrengthRaw, meanQ,
      sumFold, getPriceHistory, sliceNeg, jsMinList, jsMaxList, qleTop, qgeBot]
  refine ⟨h, ?_⟩
  rw [h]
  norm_num

/-- C4 amended: when the support set is empty, the `price <= Math.min(...)`
comparison is vacuously TRUE (the empty min is `+Infinity`), so trendStrength
is the raw strength amplified by 1.2; in particular with both sets empty the
result is `(price - SMA) * 1.2`, not the unadjusted difference. -/
theorem C4_amended_empty_support_amplifies (s : Ticker) (p : ℚ)
    (hp : s.price = some p) (hsup : s.supportLevels = []) :
    calculateTrendStrength s = (trendStrengthRaw s).map (fun x => x * (6 / 5)) := by
  unfold calculateTrendStrength
  rw [hp, hsup]
  dsimp
  rw [if_pos (show qleTop p (jsMinList []) from trivial)]

/-- Witness for the amended C4 at the concrete state `c4State`. -/
theorem C4_amended_empty_support_amplifies_witness :
    c4State.price = some 11 ∧ c4State.supportLevels = [] ∧
    calculateTrendStrength c4State =
      (trendStrengthRaw c4State).map (fun x => x * (6 / 5)) :=
  ⟨rfl, rfl, C4_amended_empty_support_amplifies c4State 11 rfl rfl⟩

/-- C6 counterexample: after two accepted samples with prices 1 and 2,
`getPriceHistory 0` returns the whole history `[1, 2]` — JS `slice(-0)` is
`slice(0)` — not the `min(0, length) = 0` prices the claim asserts. -/
theorem C6_counterexample :
    getPriceHistory twoRun 0 = [1, 2] ∧ getPriceHistory twoRun 0 ≠ [] := by
  have h : twoRun.priceHistory = [⟨1, d0⟩, ⟨2, d0⟩] := by
    show (acceptSample (acceptSample (initTicker xauSym) 1 d0) 2 d0).priceHistory = _
    rw [acceptSample_priceHistory, acceptSample_priceHistory]
    simp [initTicker, boundedPush]
  constructor <;> simp [getPriceHistory, sliceNeg, h]

/-- C6 amended: for every run the history length never exceeds the capacity
100 (oldest entry evicted first), and for every `n ≥ 1` the window
`getPriceHistory n` is exactly the last `min(n, length)` prices in arrival
order; for `n = 0` the code returns the entire history instead. -/
theorem C6_amended_capacity_and_window (l : List (ℚ × JsDate)) (n : Nat) (hn : 1 ≤ n) :
    (runSamples (initTicker xauSym) l).priceHistory.length ≤ 100 ∧
    getPriceHistory (runSamples (initTicker xauSym) l) n =
      ((runSamples (initTicker xauSym) l).priceHistory.map PricePoint.price).drop
        ((runSamples (initTicker xauSym) l).priceHistory.length - n) ∧
    (getPriceHistory (runSamples (initTicker xauSym) l) n).length =
      min n (runSamples (initTicker xauSym) l).priceHistory.length := by
  refine ⟨runSamples_history_le l _ (by simp [initTicker]), ?_, ?_⟩
  · rw [getPriceHistory, sliceNeg_eq_drop _ _ (by omega), List.map_drop]
  · rw [getPriceHistory, List.length_map, sliceNeg_length _ _ (by omega)]

/-- Witness for the amended C6: two samples, window 1 — length within
capacity, window is the last price. -/
theorem C6_amended_capacity_and_window_witness :
    (runSamples (initTicker xauSym) [(1, d0), (2, d0)]).priceHistory.length ≤ 100 ∧
    getPriceHistory (runSamples (initTicker xauSym) [(1, d0), (2, d0)]) 1 =
      ((runSamples (initTicker xauSym) [(1, d0), (2, d0)]).priceHistory.map
        PricePoint.price).drop
        ((runSamples (initTicker xauSym) [(1, d0), (2, d0)]).priceHistory.length - 1) ∧
    (getPriceHistory (runSamples (initTicker xauSym) [(1, d0), (2, d0)]) 1).length =
      min 1 (runSamples (initTicker xauSym) [(1, d0), (2, d0)]).priceHistory.length :=
  C6_amended_capacity_and_window [(1, d0), (2, d0)] 1 (by norm_num)

/-- C3: the day-rollover reset never happens.  On the concrete sequence
price 5 on day-of-month 1 then price 10 on day-of-month 2, the claim
requires the bounds to be reset before folding in the second price (low
would become 10); the code compares the current date's day with itself, so
the reset branch is unreachable and the day-low stays 5 while the day-high
becomes 10. -/
theorem C3_day_bounds_never_reset :
    (runSamples (initTicker xauSym) dayList).lowPriceOfTheDay = some 5 ∧
    (runSamples (initTicker xauSym) dayList).highPriceOfTheDay = some 10 := by
  have h1 : acceptSample (initTicker xauSym) 5 d0 =
      ⟨xauSym, usdCur, some 5, none, some d0, Signal.NEUTRAL, some 5, some 5,
        [⟨5, d0⟩], [⟨Signal.NEUTRAL, d0⟩], [5], [5], Trend.NEUTRAL⟩ := by
    norm_num [acceptSample, intermediateState, recordSample, updatePriceOfTheDay,
      storePriceData, updateSupportResistanceLevels, boundedPush, storeScore,
      calculateScore, buyCond, sellCond, ogtP, oltP, priceChange, volatilityLt,
      varianceQ, meanQ, sumFold, sqDevFold, trendStrengthRaw, calculateTrendStrength,
      isNearSupport, isNearResistance, detectBOS, detectCOC, getPriceHistory,
      sliceNeg, initTicker, jsMinList, jsMaxList, qleTop, qltTop, qgeBot, qgtBot,
      min_def, max_def]
  have h2 : acceptSample (⟨xauSym, usdCur, some 5, none, some d0, Signal.NEUTRAL,
      some 5, some 5, [⟨5, d0⟩], [⟨Signal.NEUTRAL, d0⟩], [5], [5],
      Trend.NEUTRAL⟩ : Ticker) 10 day2 =
      ⟨xauSym, usdCur, some 10, some 5, some day2, Signal.NEUTRAL, some 5, some 10,
        [⟨5, d0⟩, ⟨10, day2⟩], [⟨Signal.NEUTRAL, d0⟩, ⟨Signal.NEUTRAL, day2⟩],
        [5], [5, 10], Trend.NEUTRAL⟩ := by
    norm_num [acceptSample, intermediateState, recordSample, updatePriceOfTheDay,
      storePriceData, updateSupportResistanceLevels, boundedPush, storeScore,
      calculateScore, buyCond, sellCond, ogtP, oltP, priceChange, volatilityLt,
      varianceQ, meanQ, sumFold, sqDevFold, trendStrengthRaw, calculateTrendStrength,
      isNearSupport, isNearResistance, detectBOS, detectCOC, getPriceHistory,
      sliceNeg, initTicker, jsMinList, jsMaxList, qleTop, qltTop, qgeBot, qgtBot,
      min_def, max_def]
  have hrun : runSamples (initTicker xauSym) dayList =
      acceptSample (acceptSample (initTicker xauSym) 5 d0) 10 day2 := rfl
  rw [hrun, h1, h2]
  exact ⟨rfl, rfl⟩
